import Mathlib

/-!
Verification development for the Hollow Bridge relay core
(`src/relay/server.js`): a session-scoped pub/sub relay with
per-session cached state for late joiners.

The embedding models the Socket.IO connection handler (lines 123-171 of
the source): the in-memory session registry (`sessions` Map), the
handshake validation and role normalization, the `hb:event` relay
handler with its state-caching branch, and the disconnect handler with
immediate eviction of empty sessions.  JavaScript payloads are modelled
by the inductive `Value` type with JavaScript truthiness and `typeof`
semantics; the server's observable behaviour is a step function over a
`RelayState` holding the registry, the set of live connections (room
membership), and a log of all transport deliveries in send order.
-/

namespace HollowBridge

mutual

/-- A JavaScript value, as far as the relay inspects payloads: `undefined`,
`null`, booleans, numbers (integral model; the payloads the relay ever
branches on are compared only for truthiness and strict equality),
strings, and structured objects as field lists. -/
inductive Value where
  | vUndefined : Value
  | vNull : Value
  | vBool : Bool → Value
  | vNum : Int → Value
  | vStr : String → Value
  | vObj : Fields → Value
deriving DecidableEq, Repr

/-- The fields of a structured JavaScript object, in insertion order. -/
inductive Fields where
  | fnil : Fields
  | fcons : String → Value → Fields → Fields
deriving DecidableEq, Repr

end

/-- JavaScript truthiness of a value (`if (x)` / `!x`). -/
def truthy : Value → Bool
  | .vUndefined => false
  | .vNull => false
  | .vBool b => b
  | .vNum n => n != 0
  | .vStr s => s != ""
  | .vObj _ => true

/-- Whether `typeof x === "object"` holds in JavaScript: true for `null`
and for structured objects, false for primitives. -/
def typeofObject : Value → Bool
  | .vNull => true
  | .vObj _ => true
  | _ => false

/-- A structured (non-null, non-primitive) object. -/
def isStructuredObject : Value → Bool
  | .vObj _ => true
  | _ => false

/-- The value of field `key` in a field list, if present (first match). -/
def Fields.lookup : Fields → String → Option Value
  | .fnil, _ => none
  | .fcons k v rest, key => if k == key then some v else Fields.lookup rest key

/-- JavaScript property access `v.k`: the field's value in an object,
`undefined` otherwise. -/
def getField : Value → String → Value
  | .vObj fs, k => (fs.lookup k).getD .vUndefined
  | _, _ => .vUndefined

/-- Convenience constructor for object literals. -/
def mkObj (l : List (String × Value)) : Value :=
  .vObj (l.foldr (fun p f => .fcons p.1 p.2 f) .fnil)

/-- JavaScript `v || null`: `v` when truthy, else `null`. -/
def orNull (v : Value) : Value := if truthy v then v else .vNull

/-- JavaScript `String.prototype.trim`: strip leading and trailing
whitespace. -/
def jsTrim (s : String) : String :=
  ⟨((s.data.dropWhile Char.isWhitespace).reverse.dropWhile Char.isWhitespace).reverse⟩

/-- One session registry entry: `{ lastState, publishers, viewers }`
(source lines 116-121). -/
structure Session where
  lastState : Value
  publishers : Nat
  viewers : Nat
deriving DecidableEq, Repr

/-- The fresh session inserted by `getSession` on first reference:
`{ lastState: null, publishers: 0, viewers: 0 }`. -/
def freshSession : Session := ⟨.vNull, 0, 0⟩

/-- The registry: association list from session id to session entry,
modelling the `sessions` Map. -/
abbrev Registry := List (String × Session)

/-- Lookup of `sessions.get(sid)`. -/
def lookupSession : Registry → String → Option Session
  | [], _ => none
  | p :: rest, sid => if p.1 = sid then some p.2 else lookupSession rest sid

/-- `sessions.set(sid, s)`: replace the entry for `sid`, or insert it. -/
def setSession : Registry → String → Session → Registry
  | [], sid, s => [(sid, s)]
  | p :: rest, sid, s =>
    if p.1 = sid then (sid, s) :: rest else p :: setSession rest sid s

/-- `sessions.delete(sid)`. -/
def deleteSession (reg : Registry) (sid : String) : Registry :=
  reg.filter (fun p => !(p.1 == sid))

/-- A live connection: its socket id, the session it joined (the room
name), and its normalized role string `r` captured by the handler
closures. -/
structure Conn where
  connId : Nat
  sid : String
  role : String
deriving DecidableEq, Repr

/-- Whether an outbound send was point-to-point (`socket.emit`) or a
room broadcast (`io.to(sid).emit`). -/
inductive DKind where
  | ptp : DKind
  | bcast : DKind
deriving DecidableEq, Repr

/-- One outbound transport send on channel `hb:event`: destination
socket id, send primitive used, and the payload as sent. -/
structure Delivery where
  dest : Nat
  kind : DKind
  payload : Value
deriving DecidableEq, Repr

/-- Observable server state: the session registry, the live connections
(with their room membership and captured role), and the log of all
deliveries in send order. -/
structure RelayState where
  sessions : Registry
  conns : List Conn
  deliveries : List Delivery
deriving DecidableEq, Repr

/-- The state at process start: empty registry, no connections. -/
def initState : RelayState := ⟨[], [], []⟩

/-- The socket with id `c`, if live. -/
def findConn (st : RelayState) (c : Nat) : Option Conn :=
  st.conns.find? (fun k => k.connId == c)

/-- Whether socket id `c` is live. -/
def liveConn (st : RelayState) (c : Nat) : Bool :=
  (findConn st c).isSome

/-- All deliveries made to socket id `c`, in send order. -/
def deliveredTo (st : RelayState) (c : Nat) : List Delivery :=
  st.deliveries.filter (fun d => d.dest == c)

/-- The cached `lastState` of session `sid`, when the session exists. -/
def lastStateOf (st : RelayState) (sid : String) : Option Value :=
  (lookupSession st.sessions sid).map Session.lastState

/-- Whether session `sid` is present in the registry. -/
def sessionExists (st : RelayState) (sid : String) : Bool :=
  (lookupSession st.sessions sid).isSome

/-- The synthetic catch-up payload `{ type: "state", data: v }` sent to
a late joiner (source line 141). -/
def catchupPayload (v : Value) : Value :=
  mkObj [("type", .vStr "state"), ("data", v)]

/-- The session record a successful connect writes back: the existing
(or lazily created) session with the counter matching the normalized
role incremented (source lines 134-137). -/
def connectUpdate (st : RelayState) (sessionId role : Option String) : Session :=
  let sid := jsTrim (sessionId.getD "")
  let r := jsTrim (role.getD "")
  let s := (lookupSession st.sessions sid).getD freshSession
  if r = "publisher" then { s with publishers := s.publishers + 1 }
  else { s with viewers := s.viewers + 1 }

/-- The `io.on("connection")` handler (source lines 123-142).
`String(sessionId || "").trim()` and `String(role || "").trim()` are
modelled on optional query strings; an empty trimmed session id forces
`socket.disconnect(true)` before any other processing.  A connect that
reuses a live socket id never happens on the transport (Socket.IO ids
are unique among live sockets) and is modelled as a no-op. -/
def connectStep (st : RelayState) (c : Nat) (sessionId role : Option String) :
    RelayState :=
  let sid := jsTrim (sessionId.getD "")
  let r := jsTrim (role.getD "")
  if sid = "" then st
  else if liveConn st c then st
  else
    let s := (lookupSession st.sessions sid).getD freshSession
    let s1 := if r = "publisher" then { s with publishers := s.publishers + 1 }
              else { s with viewers := s.viewers + 1 }
    let deliveries1 :=
      if truthy s1.lastState then
        st.deliveries ++ [⟨c, .ptp, catchupPayload s1.lastState⟩]
      else st.deliveries
    { sessions := setSession st.sessions sid s1,
      conns := st.conns ++ [⟨c, sid, r⟩],
      deliveries := deliveries1 }

/-- The `socket.on("hb:event")` handler (source lines 145-159): only
registered for sockets that passed the handshake; drops payloads that
are falsy or not `typeof "object"`; caches `payload.data || null` when
`payload.type === "state"` (mutating the captured session object, which
is the registry entry whenever the session is still registered); then
broadcasts the payload verbatim to every socket in the room. -/
def eventStep (st : RelayState) (c : Nat) (payload : Value) : RelayState :=
  match findConn st c with
  | none => st
  | some conn =>
    if truthy payload && typeofObject payload then
      let sessions1 :=
        if getField payload "type" = .vStr "state" then
          match lookupSession st.sessions conn.sid with
          | some s =>
            setSession st.sessions conn.sid
              { s with lastState := orNull (getField payload "data") }
          | none => st.sessions
        else st.sessions
      { st with
        sessions := sessions1,
        deliveries := st.deliveries ++
          (st.conns.filter (fun k => k.sid == conn.sid)).map
            (fun k => ⟨k.connId, .bcast, payload⟩) }
    else st

/-- The `socket.on("disconnect")` handler (source lines 161-170):
removes the socket from its room, decrements the counter matching the
captured role with `Math.max(0, n - 1)` (truncated subtraction), and
deletes the session the instant both counters are zero.  Note the
handler calls `getSession`, lazily recreating an absent entry before
decrementing. -/
def disconnectStep (st : RelayState) (c : Nat) : RelayState :=
  match findConn st c with
  | none => st
  | some conn =>
    let conns1 := st.conns.filter (fun k => !(k.connId == c))
    let ss := (lookupSession st.sessions conn.sid).getD freshSession
    let ss1 := if conn.role = "publisher" then
                 { ss with publishers := ss.publishers - 1 }
               else { ss with viewers := ss.viewers - 1 }
    if ss1.publishers == 0 && ss1.viewers == 0 then
      { st with sessions := deleteSession st.sessions conn.sid, conns := conns1 }
    else
      { st with sessions := setSession st.sessions conn.sid ss1, conns := conns1 }

/-- The operations the transport can drive the relay with. -/
inductive Op where
  | connect (c : Nat) (sessionId role : Option String) : Op
  | event (c : Nat) (payload : Value) : Op
  | disconnect (c : Nat) : Op
deriving DecidableEq, Repr

/-- One step of the relay: all operations execute as non-overlapping
steps on the single event-processing stream. -/
def step (st : RelayState) : Op → RelayState
  | .connect c s r => connectStep st c s r
  | .event c p => eventStep st c p
  | .disconnect c => disconnectStep st c

/-- Run a list of operations from a given state. -/
def runFrom (st : RelayState) (ops : List Op) : RelayState :=
  ops.foldl step st

/-- Run a list of operations from process start. -/
def runOps (ops : List Op) : RelayState :=
  runFrom initState ops

/-! ### Registry lemmas -/

theorem lookupSession_setSession_self (reg : Registry) (sid : String) (s : Session) :
    lookupSession (setSession reg sid s) sid = some s := by
  induction reg with
  | nil => simp [setSession, lookupSession]
  | cons p rest ih =>
    by_cases h : p.1 = sid
    · simp [setSession, h, lookupSession]
    · simp [setSession, h, lookupSession, ih]

theorem lookupSession_setSession_other (reg : Registry) (sid sid' : String)
    (s : Session) (h : sid' ≠ sid) :
    lookupSession (setSession reg sid s) sid' = lookupSession reg sid' := by
  induction reg with
  | nil => simp [setSession, lookupSession, Ne.symm h]
  | cons p rest ih =>
    by_cases hp : p.1 = sid
    · simp [setSession, hp, lookupSession, Ne.symm h]
    · simp [setSession, hp, lookupSession, ih]

theorem lookupSession_deleteSession_self (reg : Registry) (sid : String) :
    lookupSession (deleteSession reg sid) sid = none := by
  induction reg with
  | nil => simp [deleteSession, lookupSession]
  | cons p rest ih =>
    by_cases h : p.1 = sid
    · simpa [deleteSession, h] using ih
    · simp only [deleteSession, List.filter_cons] at ih ⊢
      simp [h, lookupSession, ih]

theorem lookupSession_deleteSession_other (reg : Registry) (sid sid' : String)
    (h : sid' ≠ sid) :
    lookupSession (deleteSession reg sid) sid' = lookupSession reg sid' := by
  induction reg with
  | nil => simp [deleteSession, lookupSession]
  | cons p rest ih =>
    simp only [deleteSession, List.filter_cons] at ih ⊢
    by_cases hp : p.1 = sid
    · simp [hp, lookupSession, Ne.symm h, ih]
    · simp [hp, lookupSession, ih]

/-! ### Connection counting -/

/-- Live connections in session `sid` with role `publisher`. -/
def countPubs (conns : List Conn) (sid : String) : Nat :=
  conns.countP (fun k => k.sid == sid && k.role == "publisher")

/-- Live connections in session `sid` with any other role. -/
def countViews (conns : List Conn) (sid : String) : Nat :=
  conns.countP (fun k => k.sid == sid && !(k.role == "publisher"))

theorem findConn_mem (st : RelayState) (c : Nat) (k : Conn)
    (h : findConn st c = some k) : k ∈ st.conns ∧ k.connId = c := by
  refine ⟨List.mem_of_find?_eq_some h, ?_⟩
  have := List.find?_some h
  simpa using this

theorem countP_remove_id (p : Conn → Bool) (l : List Conn) (k : Conn)
    (hn : (l.map Conn.connId).Nodup) (hm : k ∈ l) :
    (l.filter (fun x => !(x.connId == k.connId))).countP p
      = l.countP p - (if p k then 1 else 0) := by
  induction l with
  | nil => cases hm
  | cons x xs ih =>
    simp only [List.map_cons, List.nodup_cons] at hn
    rcases List.mem_cons.mp hm with hk | hk
    · subst hk
      have hall : ∀ a ∈ xs, (fun y => !(y.connId == k.connId)) a = true := by
        intro a ha
        have : a.connId ≠ k.connId := by
          intro hcontra
          exact hn.1 (hcontra ▸ List.mem_map_of_mem Conn.connId ha)
        simp [this]
      rw [List.filter_cons_of_neg (by simp),
        List.filter_eq_self.mpr hall, List.countP_cons]
      omega
    · have hne : x.connId ≠ k.connId := by
        intro hcontra
        exact hn.1 (hcontra ▸ List.mem_map_of_mem Conn.connId hk)
      have hpos : (if p k then 1 else 0) ≤ xs.countP p := by
        by_cases hpk : p k
        · simpa [hpk] using (List.countP_pos_iff.mpr ⟨k, hk, hpk⟩)
        · simp [hpk]
      have hkeep : (fun y => !(y.connId == k.connId)) x = true := by simp [hne]
      rw [List.filter_cons_of_pos (by simpa using hkeep), List.countP_cons,
        List.countP_cons, ih hn.2 hk]
      omega

/-! ### The reachability invariant -/

/-- Invariant of every reachable relay state: socket ids are unique
among live connections; each registered session's counters equal the
number of live connections of the matching role in that session; no
registered session is empty; every live connection's session is
registered and its session id is non-empty; and every cached
`lastState` is either `null` or truthy. -/
structure Inv (st : RelayState) : Prop where
  ids_nodup : (st.conns.map Conn.connId).Nodup
  counts_pub : ∀ sid s, lookupSession st.sessions sid = some s →
    s.publishers = countPubs st.conns sid
  counts_view : ∀ sid s, lookupSession st.sessions sid = some s →
    s.viewers = countViews st.conns sid
  nonempty : ∀ sid s, lookupSession st.sessions sid = some s →
    0 < s.publishers + s.viewers
  conn_session : ∀ k ∈ st.conns, sessionExists st k.sid = true
  conn_sid : ∀ k ∈ st.conns, k.sid ≠ ""
  last_ok : ∀ sid s, lookupSession st.sessions sid = some s →
    s.lastState = .vNull ∨ truthy s.lastState = true

theorem inv_init : Inv initState := by
  constructor <;> simp [initState, lookupSession, sessionExists]

theorem liveConn_false_iff (st : RelayState) (c : Nat) :
    liveConn st c = false ↔ ∀ k ∈ st.conns, k.connId ≠ c := by
  rw [liveConn, Bool.eq_false_iff, ne_eq, Option.isSome_iff_ne_none, not_not,
    findConn, List.find?_eq_none]
  simp

theorem orNull_ok (v : Value) : orNull v = .vNull ∨ truthy (orNull v) = true := by
  by_cases h : truthy v
  · right; simp [orNull, h]
  · left; simp [orNull, h]

theorem countPubs_append_single (l : List Conn) (k : Conn) (sid : String) :
    countPubs (l ++ [k]) sid
      = countPubs l sid + (if k.sid = sid ∧ k.role = "publisher" then 1 else 0) := by
  simp only [countPubs, List.countP_append, List.countP_cons, List.countP_nil]
  by_cases h1 : k.sid = sid <;> by_cases h2 : k.role = "publisher" <;>
    simp [h1, h2]

theorem countViews_append_single (l : List Conn) (k : Conn) (sid : String) :
    countViews (l ++ [k]) sid
      = countViews l sid + (if k.sid = sid ∧ ¬ k.role = "publisher" then 1 else 0) := by
  simp only [countViews, List.countP_append, List.countP_cons, List.countP_nil]
  by_cases h1 : k.sid = sid <;> by_cases h2 : k.role = "publisher" <;>
    simp [h1, h2]

theorem countPubs_zero_of_no_session (st : RelayState) (sid : String)
    (hinv : Inv st) (habs : lookupSession st.sessions sid = none) :
    countPubs st.conns sid = 0 := by
  refine List.countP_eq_zero.mpr ?_
  intro k hk
  have hex := hinv.conn_session k hk
  by_cases h : k.sid = sid
  · rw [h] at hex
    simp [sessionExists, habs] at hex
  · simp [h]

theorem countViews_zero_of_no_session (st : RelayState) (sid : String)
    (hinv : Inv st) (habs : lookupSession st.sessions sid = none) :
    countViews st.conns sid = 0 := by
  refine List.countP_eq_zero.mpr ?_
  intro k hk
  have hex := hinv.conn_session k hk
  by_cases h : k.sid = sid
  · rw [h] at hex
    simp [sessionExists, habs] at hex
  · simp [h]

theorem inv_connectStep (st : RelayState) (c : Nat) (sO rO : Option String)
    (hinv : Inv st) : Inv (connectStep st c sO rO) := by
  unfold connectStep
  by_cases hsid : jsTrim (sO.getD "") = ""
  · simpa [hsid] using hinv
  · by_cases hlive : liveConn st c = true
    · simpa [hsid, hlive] using hinv
    · have hlive' : liveConn st c = false := by simpa using hlive
      have hfresh := (liveConn_false_iff st c).mp hlive'
      simp only [hsid, hlive, if_false, Bool.false_eq_true]
      set sid := jsTrim (sO.getD "") with hsiddef
      set r := jsTrim (rO.getD "") with hrdef
      set s := (lookupSession st.sessions sid).getD freshSession with hsdef
      set s1 := if r = "publisher" then { s with publishers := s.publishers + 1 }
                else { s with viewers := s.viewers + 1 } with hs1def
      have hs_pub : s.publishers = countPubs st.conns sid := by
        cases hl : lookupSession st.sessions sid with
        | none =>
          rw [countPubs_zero_of_no_session st sid hinv hl]
          simp [hsdef, hl, freshSession]
        | some s0 =>
          rw [hsdef, hl]
          exact hinv.counts_pub sid s0 hl
      have hs_view : s.viewers = countViews st.conns sid := by
        cases hl : lookupSession st.sessions sid with
        | none =>
          rw [countViews_zero_of_no_session st sid hinv hl]
          simp [hsdef, hl, freshSession]
        | some s0 =>
          rw [hsdef, hl]
          exact hinv.counts_view sid s0 hl
      have hs_last : s.lastState = .vNull ∨ truthy s.lastState = true := by
        cases hl : lookupSession st.sessions sid with
        | none => left; simp [hsdef, hl, freshSession]
        | some s0 =>
          rw [hsdef, hl]
          exact hinv.last_ok sid s0 hl
      have hs1_last : s1.lastState = s.lastState := by
        by_cases hr : r = "publisher" <;> simp [hs1def, hr]
      constructor
      · -- ids_nodup
        simp only [List.map_append, List.map_cons, List.map_nil]
        rw [List.nodup_append]
        refine ⟨hinv.ids_nodup, List.nodup_singleton c, ?_⟩
        intro a ha hb
        simp only [List.mem_singleton] at hb
        subst hb
        rcases List.mem_map.mp ha with ⟨k, hk, hkc⟩
        exact hfresh k hk hkc
      · -- counts_pub
        intro sid' s' hl'
        by_cases hq : sid' = sid
        · subst hq
          rw [lookupSession_setSession_self] at hl'
          injection hl' with hs'
          subst hs'
          rw [countPubs_append_single]
          by_cases hr : r = "publisher" <;>
            simp [hs1def, hr, hs_pub]
        · rw [lookupSession_setSession_other st.sessions sid sid' s1 hq] at hl'
          rw [countPubs_append_single]
          have hq' : ¬ (sid = sid') := fun hcontra => hq hcontra.symm
          simp [hq', hinv.counts_pub sid' s' hl']
      · -- counts_view
        intro sid' s' hl'
        by_cases hq : sid' = sid
        · subst hq
          rw [lookupSession_setSession_self] at hl'
          injection hl' with hs'
          subst hs'
          rw [countViews_append_single]
          by_cases hr : r = "publisher" <;>
            simp [hs1def, hr, hs_view]
        · rw [lookupSession_setSession_other st.sessions sid sid' s1 hq] at hl'
          rw [countViews_append_single]
          have hq' : ¬ (sid = sid') := fun hcontra => hq hcontra.symm
          simp [hq', hinv.counts_view sid' s' hl']
      · -- nonempty
        intro sid' s' hl'
        by_cases hq : sid' = sid
        · subst hq
          rw [lookupSession_setSession_self] at hl'
          injection hl' with hs'
          subst hs'
          by_cases hr : r = "publisher" <;> simp [hs1def, hr]
        · rw [lookupSession_setSession_other st.sessions sid sid' s1 hq] at hl'
          exact hinv.nonempty sid' s' hl'
      · -- conn_session
        intro k hk
        rcases List.mem_append.mp hk with hk | hk
        · have := hinv.conn_session k hk
          by_cases hq : k.sid = sid
          · simp [sessionExists, hq, lookupSession_setSession_self]
          · simpa [sessionExists, lookupSession_setSession_other st.sessions sid k.sid s1 hq]
              using this
        · simp only [List.mem_singleton] at hk
          subst hk
          simp [sessionExists, lookupSession_setSession_self]
      · -- conn_sid
        intro k hk
        rcases List.mem_append.mp hk with hk | hk
        · exact hinv.conn_sid k hk
        · simp only [List.mem_singleton] at hk
          subst hk
          exact hsid
      · -- last_ok
        intro sid' s' hl'
        by_cases hq : sid' = sid
        · subst hq
          rw [lookupSession_setSession_self] at hl'
          injection hl' with hs'
          subst hs'
          rw [hs1_last]
          exact hs_last
        · rw [lookupSession_setSession_other st.sessions sid sid' s1 hq] at hl'
          exact hinv.last_ok sid' s' hl'

theorem inv_of_eq (st st2 : RelayState) (hinv : Inv st)
    (hs : st2.sessions = st.sessions) (hc : st2.conns = st.conns) : Inv st2 := by
  constructor
  · rw [hc]; exact hinv.ids_nodup
  · intro sid s hl; rw [hs] at hl; rw [hc]; exact hinv.counts_pub sid s hl
  · intro sid s hl; rw [hs] at hl; rw [hc]; exact hinv.counts_view sid s hl
  · intro sid s hl; rw [hs] at hl; exact hinv.nonempty sid s hl
  · intro k hk; rw [hc] at hk; rw [sessionExists, hs]; exact hinv.conn_session k hk
  · intro k hk; rw [hc] at hk; exact hinv.conn_sid k hk
  · intro sid s hl; rw [hs] at hl; exact hinv.last_ok sid s hl

theorem inv_setLast (st : RelayState) (sid : String) (s0 : Session) (v2 : Value)
    (hinv : Inv st) (hl : lookupSession st.sessions sid = some s0)
    (hv : v2 = .vNull ∨ truthy v2 = true) :
    Inv { st with sessions := setSession st.sessions sid { s0 with lastState := v2 } } := by
  constructor
  · exact hinv.ids_nodup
  · intro sid' s' hl'
    by_cases hq : sid' = sid
    · subst hq
      rw [lookupSession_setSession_self] at hl'
      injection hl' with hs'
      subst hs'
      simpa using hinv.counts_pub sid' s0 hl
    · rw [lookupSession_setSession_other _ _ _ _ hq] at hl'
      exact hinv.counts_pub sid' s' hl'
  · intro sid' s' hl'
    by_cases hq : sid' = sid
    · subst hq
      rw [lookupSession_setSession_self] at hl'
      injection hl' with hs'
      subst hs'
      simpa using hinv.counts_view sid' s0 hl
    · rw [lookupSession_setSession_other _ _ _ _ hq] at hl'
      exact hinv.counts_view sid' s' hl'
  · intro sid' s' hl'
    by_cases hq : sid' = sid
    · subst hq
      rw [lookupSession_setSession_self] at hl'
      injection hl' with hs'
      subst hs'
      simpa using hinv.nonempty sid' s0 hl
    · rw [lookupSession_setSession_other _ _ _ _ hq] at hl'
      exact hinv.nonempty sid' s' hl'
  · intro k hk
    by_cases hq : k.sid = sid
    · simp [sessionExists, hq, lookupSession_setSession_self]
    · have := hinv.conn_session k hk
      simpa [sessionExists, lookupSession_setSession_other _ _ _ _ hq] using this
  · intro k hk
    exact hinv.conn_sid k hk
  · intro sid' s' hl'
    by_cases hq : sid' = sid
    · subst hq
      rw [lookupSession_setSession_self] at hl'
      injection hl' with hs'
      subst hs'
      simpa using hv
    · rw [lookupSession_setSession_other _ _ _ _ hq] at hl'
      exact hinv.last_ok sid' s' hl'

theorem inv_eventStep (st : RelayState) (c : Nat) (pay : Value) (hinv : Inv st) :
    Inv (eventStep st c pay) := by
  cases hf : findConn st c with
  | none =>
    simp only [eventStep, hf]
    exact hinv
  | some conn =>
    simp only [eventStep, hf]
    by_cases hwf : (truthy pay && typeofObject pay) = true
    · rw [if_pos hwf]
      by_cases hty : getField pay "type" = Value.vStr "state"
      · rw [if_pos hty]
        cases hl : lookupSession st.sessions conn.sid with
        | none => exact inv_of_eq st _ hinv rfl rfl
        | some s0 =>
          exact inv_of_eq _ _
            (inv_setLast st conn.sid s0 (orNull (getField pay "data")) hinv hl
              (orNull_ok _)) rfl rfl
      · rw [if_neg hty]
        exact inv_of_eq st _ hinv rfl rfl
    · rw [if_neg hwf]
      exact hinv

theorem inv_disconnectStep (st : RelayState) (c : Nat) (hinv : Inv st) :
    Inv (disconnectStep st c) := by
  cases hf : findConn st c with
  | none =>
    simp only [disconnectStep, hf]
    exact hinv
  | some conn =>
    simp only [disconnectStep, hf]
    obtain ⟨hmem, hcid⟩ := findConn_mem st c conn hf
    have hex := hinv.conn_session conn hmem
    rw [sessionExists, Option.isSome_iff_exists] at hex
    obtain ⟨s0, hl⟩ := hex
    have hcp := hinv.counts_pub conn.sid s0 hl
    have hcv := hinv.counts_view conn.sid s0 hl
    have hrempub : ∀ sid', countPubs (st.conns.filter (fun k => !(k.connId == c))) sid'
        = countPubs st.conns sid'
          - (if conn.sid = sid' ∧ conn.role = "publisher" then 1 else 0) := by
      intro sid'
      have h0 := countP_remove_id (fun k => k.sid == sid' && k.role == "publisher")
        st.conns conn hinv.ids_nodup hmem
      rw [hcid] at h0
      rw [countPubs, h0]
      by_cases h1 : conn.sid = sid' <;> by_cases h2 : conn.role = "publisher" <;>
        simp [countPubs, h1, h2]
    have hremview : ∀ sid', countViews (st.conns.filter (fun k => !(k.connId == c))) sid'
        = countViews st.conns sid'
          - (if conn.sid = sid' ∧ ¬ conn.role = "publisher" then 1 else 0) := by
      intro sid'
      have h0 := countP_remove_id (fun k => k.sid == sid' && !(k.role == "publisher"))
        st.conns conn hinv.ids_nodup hmem
      rw [hcid] at h0
      rw [countViews, h0]
      by_cases h1 : conn.sid = sid' <;> by_cases h2 : conn.role = "publisher" <;>
        simp [countViews, h1, h2]
    rw [hl]
    simp only [Option.getD_some]
    set conns1 := st.conns.filter (fun k => !(k.connId == c)) with hconns1
    set ss1 := if conn.role = "publisher" then
        { s0 with publishers := s0.publishers - 1 }
      else { s0 with viewers := s0.viewers - 1 } with hss1
    have hnodup1 : (conns1.map Conn.connId).Nodup :=
      ((List.filter_sublist st.conns).map Conn.connId).nodup hinv.ids_nodup
    have hss1_pub : ss1.publishers = countPubs conns1 conn.sid := by
      rw [hconns1, hrempub conn.sid]
      by_cases h2 : conn.role = "publisher" <;> simp [hss1, h2, hcp]
    have hss1_view : ss1.viewers = countViews conns1 conn.sid := by
      rw [hconns1, hremview conn.sid]
      by_cases h2 : conn.role = "publisher" <;> simp [hss1, h2, hcv]
    have hss1_last : ss1.lastState = s0.lastState := by
      by_cases h2 : conn.role = "publisher" <;> simp [hss1, h2]
    have hmem1 : ∀ k ∈ conns1, k ∈ st.conns := by
      intro k hk
      exact List.mem_of_mem_filter hk
    by_cases hz : (ss1.publishers == 0 && ss1.viewers == 0) = true
    · rw [if_pos hz]
      simp only [beq_iff_eq, Bool.and_eq_true] at hz
      have hempty : ∀ k ∈ conns1, k.sid ≠ conn.sid := by
        intro k hk hcontra
        by_cases hrole : k.role = "publisher"
        · have hpos : 0 < countPubs conns1 conn.sid := by
            rw [countPubs]
            exact List.countP_pos_iff.mpr ⟨k, hk, by simp [hcontra, hrole]⟩
          rw [← hss1_pub] at hpos
          omega
        · have hpos : 0 < countViews conns1 conn.sid := by
            rw [countViews]
            exact List.countP_pos_iff.mpr ⟨k, hk, by simp [hcontra, hrole]⟩
          rw [← hss1_view] at hpos
          omega
      constructor
      · exact hnodup1
      · intro sid' s' hl'
        by_cases hq : sid' = conn.sid
        · subst hq
          rw [lookupSession_deleteSession_self] at hl'
          cases hl'
        · rw [lookupSession_deleteSession_other _ _ _ hq] at hl'
          rw [hconns1, hrempub sid']
          have hq' : ¬ (conn.sid = sid') := fun hcontra => hq hcontra.symm
          simp [hq', hinv.counts_pub sid' s' hl']
      · intro sid' s' hl'
        by_cases hq : sid' = conn.sid
        · subst hq
          rw [lookupSession_deleteSession_self] at hl'
          cases hl'
        · rw [lookupSession_deleteSession_other _ _ _ hq] at hl'
          rw [hconns1, hremview sid']
          have hq' : ¬ (conn.sid = sid') := fun hcontra => hq hcontra.symm
          simp [hq', hinv.counts_view sid' s' hl']
      · intro sid' s' hl'
        by_cases hq : sid' = conn.sid
        · subst hq
          rw [lookupSession_deleteSession_self] at hl'
          cases hl'
        · rw [lookupSession_deleteSession_other _ _ _ hq] at hl'
          exact hinv.nonempty sid' s' hl'
      · intro k hk
        have hne := hempty k hk
        rw [sessionExists]
        show (lookupSession (deleteSession st.sessions conn.sid) k.sid).isSome = true
        rw [lookupSession_deleteSession_other _ _ _ hne]
        exact hinv.conn_session k (hmem1 k hk)
      · intro k hk
        exact hinv.conn_sid k (hmem1 k hk)
      · intro sid' s' hl'
        by_cases hq : sid' = conn.sid
        · subst hq
          rw [lookupSession_deleteSession_self] at hl'
          cases hl'
        · rw [lookupSession_deleteSession_other _ _ _ hq] at hl'
          exact hinv.last_ok sid' s' hl'
    · rw [if_neg hz]
      simp only [beq_iff_eq, Bool.and_eq_true, not_and] at hz
      constructor
      · exact hnodup1
      · intro sid' s' hl'
        by_cases hq : sid' = conn.sid
        · subst hq
          rw [lookupSession_setSession_self] at hl'
          injection hl' with hs'
          subst hs'
          exact hss1_pub
        · rw [lookupSession_setSession_other _ _ _ _ hq] at hl'
          rw [hconns1, hrempub sid']
          have hq' : ¬ (conn.sid = sid') := fun hcontra => hq hcontra.symm
          simp [hq', hinv.counts_pub sid' s' hl']
      · intro sid' s' hl'
        by_cases hq : sid' = conn.sid
        · subst hq
          rw [lookupSession_setSession_self] at hl'
          injection hl' with hs'
          subst hs'
          exact hss1_view
        · rw [lookupSession_setSession_other _ _ _ _ hq] at hl'
          rw [hconns1, hremview sid']
          have hq' : ¬ (conn.sid = sid') := fun hcontra => hq hcontra.symm
          simp [hq', hinv.counts_view sid' s' hl']
      · intro sid' s' hl'
        by_cases hq : sid' = conn.sid
        · subst hq
          rw [lookupSession_setSession_self] at hl'
          injection hl' with hs'
          subst hs'
          by_cases h2 : ss1.publishers = 0
          · have := hz h2
            omega
          · omega
        · rw [lookupSession_setSession_other _ _ _ _ hq] at hl'
          exact hinv.nonempty sid' s' hl'
      · intro k hk
        by_cases hq : k.sid = conn.sid
        · rw [sessionExists]
          show (lookupSession (setSession st.sessions conn.sid ss1) k.sid).isSome = true
          rw [hq, lookupSession_setSession_self]
          rfl
        · rw [sessionExists]
          show (lookupSession (setSession st.sessions conn.sid ss1) k.sid).isSome = true
          rw [lookupSession_setSession_other _ _ _ _ hq]
          exact hinv.conn_session k (hmem1 k hk)
      · intro k hk
        exact hinv.conn_sid k (hmem1 k hk)
      · intro sid' s' hl'
        by_cases hq : sid' = conn.sid
        · subst hq
          rw [lookupSession_setSession_self] at hl'
          injection hl' with hs'
          subst hs'
          rw [hss1_last]
          exact hinv.last_ok conn.sid s0 hl
        · rw [lookupSession_setSession_other _ _ _ _ hq] at hl'
          exact hinv.last_ok sid' s' hl'

theorem inv_step (st : RelayState) (op : Op) (hinv : Inv st) : Inv (step st op) := by
  cases op with
  | connect c sO rO => exact inv_connectStep st c sO rO hinv
  | event c p => exact inv_eventStep st c p hinv
  | disconnect c => exact inv_disconnectStep st c hinv

theorem inv_runFrom (st : RelayState) (ops : List Op) (hinv : Inv st) :
    Inv (runFrom st ops) := by
  induction ops generalizing st with
  | nil => exact hinv
  | cons op rest ih =>
    exact ih (step st op) (inv_step st op hinv)

theorem inv_runOps (ops : List Op) : Inv (runOps ops) :=
  inv_runFrom initState ops inv_init

/-! ### Step characterizations -/

theorem object_guard (p : Value) : (truthy p && typeofObject p) = isStructuredObject p := by
  cases p <;> simp [truthy, typeofObject, isStructuredObject]

theorem findConn_none_of_not_live (st : RelayState) (c : Nat)
    (h : liveConn st c = false) : findConn st c = none := by
  rw [liveConn] at h
  cases hf : findConn st c with
  | none => rfl
  | some conn => rw [hf] at h; cases h

theorem eventStep_not_live (st : RelayState) (c : Nat) (pay : Value)
    (h : liveConn st c = false) : eventStep st c pay = st := by
  rw [eventStep, findConn_none_of_not_live st c h]

theorem connectStep_real (st : RelayState) (c : Nat) (sO rO : Option String)
    (hsid : jsTrim (sO.getD "") ≠ "") (hlive : liveConn st c = false) :
    connectStep st c sO rO =
      { sessions := setSession st.sessions (jsTrim (sO.getD ""))
          (connectUpdate st sO rO),
        conns := st.conns ++ [⟨c, jsTrim (sO.getD ""), jsTrim (rO.getD "")⟩],
        deliveries :=
          if truthy (connectUpdate st sO rO).lastState then
            st.deliveries ++ [⟨c, .ptp, catchupPayload (connectUpdate st sO rO).lastState⟩]
          else st.deliveries } := by
  simp [connectStep, connectUpdate, hsid, hlive]

theorem eventStep_real (st : RelayState) (c : Nat) (pay : Value) (conn : Conn)
    (hf : findConn st c = some conn) (hwf : isStructuredObject pay = true) :
    eventStep st c pay =
      { sessions :=
          if getField pay "type" = .vStr "state" then
            match lookupSession st.sessions conn.sid with
            | some s =>
              setSession st.sessions conn.sid
                { s with lastState := orNull (getField pay "data") }
            | none => st.sessions
          else st.sessions,
        conns := st.conns,
        deliveries := st.deliveries ++
          (st.conns.filter (fun k => k.sid == conn.sid)).map
            (fun k => ⟨k.connId, .bcast, pay⟩) } := by
  simp only [eventStep, hf, object_guard, hwf, if_true]

/-- The decremented session record a disconnect computes before its
check-and-evict (source lines 162-164). -/
def disconnectUpdate (st : RelayState) (conn : Conn) : Session :=
  let ss := (lookupSession st.sessions conn.sid).getD freshSession
  if conn.role = "publisher" then { ss with publishers := ss.publishers - 1 }
  else { ss with viewers := ss.viewers - 1 }

theorem disconnectStep_real (st : RelayState) (c : Nat) (conn : Conn)
    (hf : findConn st c = some conn) :
    disconnectStep st c =
      if ((disconnectUpdate st conn).publishers == 0 &&
          (disconnectUpdate st conn).viewers == 0) = true then
        { st with sessions := deleteSession st.sessions conn.sid,
                  conns := st.conns.filter (fun k => !(k.connId == c)) }
      else
        { st with sessions := setSession st.sessions conn.sid (disconnectUpdate st conn),
                  conns := st.conns.filter (fun k => !(k.connId == c)) } := by
  simp only [disconnectStep, hf, disconnectUpdate]

theorem connectUpdate_lastState (st : RelayState) (sO rO : Option String) :
    (connectUpdate st sO rO).lastState
      = ((lookupSession st.sessions (jsTrim (sO.getD ""))).getD
          freshSession).lastState := by
  rw [connectUpdate]
  by_cases hr : jsTrim (rO.getD "") = "publisher" <;> simp [hr]

/-! ### The claims -/

/-- Claim C3: after any sequence of connect, disconnect and event
operations, the registry never contains a session whose publisher and
viewer counters are both zero — a session emptied by a disconnect is
evicted the instant that disconnect completes. -/
theorem c3_no_empty_session (ops : List Op) (sid : String) (s : Session)
    (hl : lookupSession (runOps ops).sessions sid = some s) :
    ¬ (s.publishers = 0 ∧ s.viewers = 0) := by
  have h := (inv_runOps ops).nonempty sid s hl
  omega

/-- Witness for C3 at a concrete trace. -/
theorem c3_no_empty_session_witness :
    ¬ ((⟨Value.vNull, 1, 0⟩ : Session).publishers = 0 ∧
       (⟨Value.vNull, 1, 0⟩ : Session).viewers = 0) :=
  c3_no_empty_session [.connect 0 (some "s") (some "publisher")] "s"
    ⟨Value.vNull, 1, 0⟩ (by decide)

/-- Claim C6: a handshake whose session identifier is empty after
trimming (or absent) is rejected atomically: the relay state is
completely unchanged — no session created, no counter incremented, no
room joined — and any subsequent event from that socket is not
relayed either. -/
theorem c6_rejected_handshake (st : RelayState) (c : Nat) (sO rO : Option String)
    (hsid : jsTrim (sO.getD "") = "") :
    step st (.connect c sO rO) = st ∧
      (liveConn st c = false →
        ∀ pay, step (step st (.connect c sO rO)) (.event c pay) = st) := by
  have h1 : step st (.connect c sO rO) = st := by
    show connectStep st c sO rO = st
    rw [connectStep, if_pos hsid]
  refine ⟨h1, ?_⟩
  intro hlive pay
  rw [h1]
  exact eventStep_not_live st c pay hlive

/-- Witness for C6 at a concrete input: whitespace-only session id. -/
theorem c6_rejected_handshake_witness :
    step initState (.connect 0 (some "   ") none) = initState ∧
      step (step initState (.connect 0 (some "   ") none))
        (.event 0 (.vStr "x")) = initState := by
  have h := c6_rejected_handshake initState 0 (some "   ") none (by decide)
  exact ⟨h.1, h.2 (by decide) (.vStr "x")⟩

/-- Claim C7: a payload that is null, absent (undefined) or not a
structured object (a bare string, number or boolean) is dropped
atomically: the relay state is completely unchanged — zero broadcasts,
`lastState` and both counters untouched, no error surfaced, the
connection still open. -/
theorem c7_malformed_event (st : RelayState) (c : Nat) (pay : Value)
    (hmal : isStructuredObject pay = false) :
    step st (.event c pay) = st := by
  show eventStep st c pay = st
  cases hf : findConn st c with
  | none => rw [eventStep, hf]
  | some conn =>
    rw [eventStep, hf, object_guard, hmal]
    simp

/-- Witness for C7: a bare string sent by a live connection. -/
theorem c7_malformed_event_witness :
    step (runOps [.connect 0 (some "s") none]) (.event 0 (.vStr "oops"))
      = runOps [.connect 0 (some "s") none] :=
  c7_malformed_event (runOps [.connect 0 (some "s") none]) 0 (.vStr "oops")
    (by decide)

/-- Claim C8: a well-formed event from a live connection is broadcast
verbatim (the payload value itself, unchanged) to exactly the current
members of the sender's session room, and the sender is among the
recipients. -/
theorem c8_broadcast_verbatim (st : RelayState) (c : Nat) (pay : Value) (conn : Conn)
    (hf : findConn st c = some conn) (hwf : isStructuredObject pay = true) :
    (step st (.event c pay)).deliveries
        = st.deliveries ++ (st.conns.filter (fun k => k.sid == conn.sid)).map
            (fun k => ⟨k.connId, .bcast, pay⟩) ∧
      (∀ k ∈ st.conns, k.sid = conn.sid →
        Delivery.mk k.connId .bcast pay ∈ (step st (.event c pay)).deliveries) ∧
      Delivery.mk c .bcast pay ∈ (step st (.event c pay)).deliveries := by
  have hstep : (step st (.event c pay)).deliveries
      = st.deliveries ++ (st.conns.filter (fun k => k.sid == conn.sid)).map
          (fun k => ⟨k.connId, .bcast, pay⟩) := by
    show (eventStep st c pay).deliveries = _
    rw [eventStep_real st c pay conn hf hwf]
  have hmemall : ∀ k ∈ st.conns, k.sid = conn.sid →
      Delivery.mk k.connId .bcast pay ∈ (step st (.event c pay)).deliveries := by
    intro k hk hsid
    rw [hstep]
    refine List.mem_append_right _ ?_
    exact List.mem_map_of_mem _ (List.mem_filter.mpr ⟨hk, by simp [hsid]⟩)
  obtain ⟨hmem, hcid⟩ := findConn_mem st c conn hf
  refine ⟨hstep, hmemall, ?_⟩
  have := hmemall conn hmem rfl
  rwa [hcid] at this

/-- Witness for C8: an emoji event in a two-member session reaches both
members, the sender included. -/
theorem c8_broadcast_verbatim_witness :
    (step (runOps [.connect 0 (some "s") (some "publisher"), .connect 1 (some "s") none])
        (.event 0 (mkObj [("type", .vStr "emoji")]))).deliveries
      = [⟨0, .bcast, mkObj [("type", .vStr "emoji")]⟩,
         ⟨1, .bcast, mkObj [("type", .vStr "emoji")]⟩] := by
  have h := c8_broadcast_verbatim
    (runOps [.connect 0 (some "s") (some "publisher"), .connect 1 (some "s") none])
    0 (mkObj [("type", .vStr "emoji")]) ⟨0, "s", "publisher"⟩ (by decide) (by decide)
  rw [h.1]
  decide

/-- Counterexample for C4: a "state" event whose data field is present
but falsy (here `false`) stores `null` in `lastState`, not the data
field's value, contradicting "set to the event's data field, or null
only if the data field is absent". -/
theorem c4_counterexample :
    lastStateOf (runOps [.connect 0 (some "s") none,
        .event 0 (mkObj [("type", .vStr "state"), ("data", .vBool false)])]) "s"
      = some .vNull ∧ Value.vBool false ≠ .vNull := by
  constructor
  · decide
  · decide

/-- Claim C4 (amended): a well-formed event with type strictly equal to
"state" sets the owning session's `lastState` to the event's data field
when that value is truthy, and to null when the data field is absent or
falsy; an event of any other type leaves the registry unchanged. -/
theorem c4_state_caching (st : RelayState) (c : Nat) (pay : Value) (conn : Conn)
    (s0 : Session) (hf : findConn st c = some conn)
    (hl : lookupSession st.sessions conn.sid = some s0)
    (hwf : isStructuredObject pay = true) :
    (getField pay "type" = .vStr "state" →
      lastStateOf (step st (.event c pay)) conn.sid
        = some (if truthy (getField pay "data") = true then getField pay "data"
                else .vNull))
  ∧ (getField pay "type" ≠ .vStr "state" →
      (step st (.event c pay)).sessions = st.sessions) := by
  have hstep : step st (.event c pay) = eventStep st c pay := rfl
  rw [hstep, eventStep_real st c pay conn hf hwf]
  constructor
  · intro hty
    rw [lastStateOf]
    simp only [if_pos hty, hl, lookupSession_setSession_self, Option.map_some]
    rw [orNull]
    by_cases hd : truthy (getField pay "data") = true
    · simp [hd]
    · simp only [Bool.not_eq_true] at hd
      simp [hd]
  · intro hty
    simp [if_neg hty]

/-- Witness for C4 (amended): both the truthy-data branch and the
other-type branch at concrete inputs. -/
theorem c4_state_caching_witness :
    lastStateOf (step (runOps [.connect 0 (some "s") none])
        (.event 0 (mkObj [("type", .vStr "state"), ("data", .vNum 7)]))) "s"
      = some (.vNum 7) ∧
    (step (runOps [.connect 0 (some "s") none])
        (.event 0 (mkObj [("type", .vStr "emoji"), ("data", .vNum 7)]))).sessions
      = (runOps [.connect 0 (some "s") none]).sessions := by
  constructor
  · have h := c4_state_caching (runOps [.connect 0 (some "s") none]) 0
      (mkObj [("type", .vStr "state"), ("data", .vNum 7)]) ⟨0, "s", ""⟩
      ⟨.vNull, 0, 1⟩ (by decide) (by decide) (by decide)
    have h2 := h.1 (by decide)
    rw [h2]
    decide
  · have h := c4_state_caching (runOps [.connect 0 (some "s") none]) 0
      (mkObj [("type", .vStr "emoji"), ("data", .vNum 7)]) ⟨0, "s", ""⟩
      ⟨.vNull, 0, 1⟩ (by decide) (by decide) (by decide)
    exact h.2 (by decide)

/-- Counterexample for C5: a supplied role of " publisher" (leading
space) does not case-sensitively equal "publisher", yet the code trims
it first and records the connection as a publisher, incrementing
`publisherCount`. -/
theorem c5_counterexample :
    lookupSession (runOps [.connect 0 (some "s") (some " publisher")]).sessions "s"
      = some ⟨.vNull, 1, 0⟩ ∧ (" publisher" : String) ≠ "publisher" := by
  constructor
  · decide
  · decide

/-- Claim C5 (amended): on a handshake with a non-empty trimmed session
identifier, the connection's recorded role is "publisher" if and only
if the supplied role string, after trimming whitespace, case-sensitively
equals "publisher"; any other trimmed value (including absent) records a
viewer; exactly the matching counter is incremented by one. -/
theorem c5_role_normalization (st : RelayState) (c : Nat) (sO rO : Option String)
    (hsid : jsTrim (sO.getD "") ≠ "") (hlive : liveConn st c = false) :
    findConn (step st (.connect c sO rO)) c
        = some ⟨c, jsTrim (sO.getD ""), jsTrim (rO.getD "")⟩
  ∧ (jsTrim (rO.getD "") = "publisher" →
      lookupSession (step st (.connect c sO rO)).sessions (jsTrim (sO.getD ""))
        = some { (lookupSession st.sessions (jsTrim (sO.getD ""))).getD freshSession with
            publishers := ((lookupSession st.sessions (jsTrim (sO.getD ""))).getD
              freshSession).publishers + 1 })
  ∧ (jsTrim (rO.getD "") ≠ "publisher" →
      lookupSession (step st (.connect c sO rO)).sessions (jsTrim (sO.getD ""))
        = some { (lookupSession st.sessions (jsTrim (sO.getD ""))).getD freshSession with
            viewers := ((lookupSession st.sessions (jsTrim (sO.getD ""))).getD
              freshSession).viewers + 1 }) := by
  have hstep : step st (.connect c sO rO) = connectStep st c sO rO := rfl
  rw [hstep, connectStep_real st c sO rO hsid hlive]
  have hnone : st.conns.find? (fun k => k.connId == c) = none := by
    have h := findConn_none_of_not_live st c hlive
    rwa [findConn] at h
  refine ⟨?_, ?_, ?_⟩
  · rw [findConn]
    simp [List.find?_append, hnone]
  · intro hr
    rw [lookupSession_setSession_self]
    simp [connectUpdate, hr]
  · intro hr
    rw [lookupSession_setSession_self]
    simp [connectUpdate, hr]

/-- Witness for C5 (amended): a publisher-role connect and a role-less
connect at concrete inputs. -/
theorem c5_role_normalization_witness :
    findConn (step initState (.connect 0 (some "s") (some "publisher"))) 0
        = some ⟨0, "s", "publisher"⟩ ∧
    lookupSession (step initState (.connect 0 (some "s") (some "publisher"))).sessions "s"
        = some ⟨.vNull, 1, 0⟩ ∧
    lookupSession (step initState (.connect 1 (some "s") none)).sessions "s"
        = some ⟨.vNull, 0, 1⟩ := by
  have hp := c5_role_normalization initState 0 (some "s") (some "publisher")
    (by decide) (by decide)
  have hv := c5_role_normalization initState 1 (some "s") none
    (by decide) (by decide)
  exact ⟨hp.1, hp.2.1 (by decide), hv.2.2 (by decide)⟩

/-- Claim C1: when a fresh connection completes the handshake into a
session whose cached `lastState` is non-null (in any reachable state),
the relay sends exactly one point-to-point catch-up event
`{type: "state", data: lastState}` to that connection — it is the only
delivery that connection has received, so it precedes any broadcast
traffic to it — no other connection's deliveries change, and the
session's `lastState` is not modified.  When `lastState` is null (or the
session does not exist), no catch-up is sent and the delivery log is
unchanged. -/
theorem c1_catchup (ops : List Op) (c : Nat) (sO rO : Option String)
    (hsid : jsTrim (sO.getD "") ≠ "")
    (hlive : liveConn (runOps ops) c = false)
    (hfresh : deliveredTo (runOps ops) c = []) :
    (∀ v, lastStateOf (runOps ops) (jsTrim (sO.getD "")) = some v → v ≠ .vNull →
        deliveredTo (step (runOps ops) (.connect c sO rO)) c
            = [⟨c, .ptp, catchupPayload v⟩]
      ∧ (∀ c2, c2 ≠ c → deliveredTo (step (runOps ops) (.connect c sO rO)) c2
            = deliveredTo (runOps ops) c2)
      ∧ lastStateOf (step (runOps ops) (.connect c sO rO)) (jsTrim (sO.getD ""))
            = some v)
  ∧ ((lastStateOf (runOps ops) (jsTrim (sO.getD "")) = none ∨
        lastStateOf (runOps ops) (jsTrim (sO.getD "")) = some .vNull) →
      (step (runOps ops) (.connect c sO rO)).deliveries = (runOps ops).deliveries
      ∧ deliveredTo (step (runOps ops) (.connect c sO rO)) c = []) := by
  have hstep : step (runOps ops) (.connect c sO rO)
      = connectStep (runOps ops) c sO rO := rfl
  rw [hstep, connectStep_real (runOps ops) c sO rO hsid hlive]
  have hcu : (connectUpdate (runOps ops) sO rO).lastState
      = ((lookupSession (runOps ops).sessions (jsTrim (sO.getD ""))).getD
          freshSession).lastState := by
    rw [connectUpdate]
    by_cases hr : jsTrim (rO.getD "") = "publisher" <;> simp [hr]
  constructor
  · intro v hv hvne
    rw [lastStateOf] at hv
    cases hl : lookupSession (runOps ops).sessions (jsTrim (sO.getD "")) with
    | none => rw [hl] at hv; cases hv
    | some s =>
      rw [hl] at hv
      have hv : s.lastState = v := by simpa using hv
      have htr : truthy v = true := by
        rcases (inv_runOps ops).last_ok _ s hl with h0 | h0
        · rw [hv] at h0; exact absurd h0 hvne
        · rwa [hv] at h0
      have hcv : (connectUpdate (runOps ops) sO rO).lastState = v := by
        rw [hcu, hl, Option.getD_some, hv]
      refine ⟨?_, ?_, ?_⟩
      · rw [deliveredTo]
        simp only [hcv, htr, if_true, List.filter_append]
        rw [deliveredTo] at hfresh
        rw [hfresh]
        simp
      · intro c2 hc2
        rw [deliveredTo, deliveredTo]
        simp only [hcv, htr, if_true, List.filter_append]
        have : (fun d => d.dest == c2) (⟨c, .ptp, catchupPayload v⟩ : Delivery)
            = false := by
          simp [Ne.symm hc2]
        simp [this]
      · rw [lastStateOf]
        simp [lookupSession_setSession_self, hcv]
  · intro hnull
    have hcv : (connectUpdate (runOps ops) sO rO).lastState = .vNull := by
      rcases hnull with h0 | h0 <;>
        rw [lastStateOf] at h0
      · cases hl : lookupSession (runOps ops).sessions (jsTrim (sO.getD "")) with
        | none => rw [hcu, hl]; rfl
        | some s => rw [hl] at h0; cases h0
      · cases hl : lookupSession (runOps ops).sessions (jsTrim (sO.getD "")) with
        | none => rw [hl] at h0; cases h0
        | some s =>
          rw [hl] at h0
          have h0 : s.lastState = Value.vNull := by simpa using h0
          rw [hcu, hl, Option.getD_some, h0]
    refine ⟨?_, ?_⟩
    · simp [hcv, truthy]
    · rw [deliveredTo]
      rw [deliveredTo] at hfresh
      simp only [hcv]
      simpa [truthy] using hfresh

/-- Witness for C1: a late joiner to a session with cached state gets
exactly the catch-up delivery; a joiner to a stateless session gets
nothing. -/
theorem c1_catchup_witness :
    deliveredTo (step (runOps [.connect 0 (some "abc") (some "publisher"),
          .event 0 (mkObj [("type", .vStr "state"),
            ("data", mkObj [("score", .vNum 5)])])])
        (.connect 1 (some "abc") none)) 1
      = [⟨1, .ptp, catchupPayload (mkObj [("score", .vNum 5)])⟩]
  ∧ (step (runOps [.connect 0 (some "abc") none])
        (.connect 1 (some "abc") none)).deliveries
      = (runOps [.connect 0 (some "abc") none]).deliveries := by
  constructor
  · exact ((c1_catchup [.connect 0 (some "abc") (some "publisher"),
        .event 0 (mkObj [("type", .vStr "state"),
          ("data", mkObj [("score", .vNum 5)])])] 1 (some "abc") none
        (by decide) (by decide) (by decide)).1
      (mkObj [("score", .vNum 5)]) (by decide) (by decide)).1
  · exact ((c1_catchup [.connect 0 (some "abc") none] 1 (some "abc") none
        (by decide) (by decide) (by decide)).2 (Or.inr (by decide))).1

/-- Claim C10: in every reachable state, every session's `lastState` is
either null or truthy — never a falsy non-null value — so the code's
truthiness guard on the catch-up send coincides with a non-null test;
moreover a "state" event carrying falsy data stores null and therefore
disables the catch-up for a subsequent joiner of that session. -/
theorem c10_laststate_truthiness :
    (∀ ops sid s, lookupSession (runOps ops).sessions sid = some s →
        (s.lastState = .vNull ∨ truthy s.lastState = true)
      ∧ (truthy s.lastState = true ↔ s.lastState ≠ .vNull))
  ∧ (∀ st c pay conn s0 c2 sO rO,
      findConn st c = some conn →
      lookupSession st.sessions conn.sid = some s0 →
      isStructuredObject pay = true →
      getField pay "type" = .vStr "state" →
      truthy (getField pay "data") = false →
      jsTrim (sO.getD "") = conn.sid →
      (step (step st (.event c pay)) (.connect c2 sO rO)).deliveries
        = (step st (.event c pay)).deliveries) := by
  constructor
  · intro ops sid s hl
    have hd := (inv_runOps ops).last_ok sid s hl
    refine ⟨hd, ?_⟩
    constructor
    · intro ht hnull
      rw [hnull] at ht
      simp [truthy] at ht
    · intro hne
      rcases hd with h0 | h0
      · exact absurd h0 hne
      · exact h0
  · intro st c pay conn s0 c2 sO rO hf hl hwf hty hdf hsO
    have hl1 : lookupSession (step st (.event c pay)).sessions conn.sid
        = some { s0 with lastState := .vNull } := by
      show lookupSession (eventStep st c pay).sessions conn.sid = _
      rw [eventStep_real st c pay conn hf hwf]
      simp only [if_pos hty, hl]
      rw [lookupSession_setSession_self]
      have h0 : orNull (getField pay "data") = .vNull := by
        rw [orNull, hdf]
        simp
      rw [h0]
    by_cases hsid0 : jsTrim (sO.getD "") = ""
    · show (connectStep (step st (.event c pay)) c2 sO rO).deliveries = _
      rw [connectStep, if_pos hsid0]
    · by_cases hlive2 : liveConn (step st (.event c pay)) c2 = true
      · show (connectStep (step st (.event c pay)) c2 sO rO).deliveries = _
        rw [connectStep, if_neg hsid0]
        simp [hlive2]
      · show (connectStep (step st (.event c pay)) c2 sO rO).deliveries = _
        rw [connectStep_real _ c2 sO rO hsid0 (by simpa using hlive2)]
        have hcu : (connectUpdate (step st (.event c pay)) sO rO).lastState
            = .vNull := by
          rw [connectUpdate_lastState, hsO, hl1, Option.getD_some]
        simp [hcu, truthy]

/-- Witness for C10: the invariant and the equivalence at a session
holding cached state, and the disabled catch-up after a falsy-data
state event, at concrete inputs. -/
theorem c10_laststate_truthiness_witness :
    ((((⟨mkObj [("score", .vNum 5)], 1, 0⟩ : Session)).lastState = .vNull ∨
        truthy (⟨mkObj [("score", .vNum 5)], 1, 0⟩ : Session).lastState = true)
      ∧ (truthy (⟨mkObj [("score", .vNum 5)], 1, 0⟩ : Session).lastState = true ↔
          (⟨mkObj [("score", .vNum 5)], 1, 0⟩ : Session).lastState ≠ .vNull))
  ∧ (step (step (runOps [.connect 0 (some "s") none])
        (.event 0 (mkObj [("type", .vStr "state"), ("data", .vNum 0)])))
        (.connect 1 (some "s") none)).deliveries
      = (step (runOps [.connect 0 (some "s") none])
        (.event 0 (mkObj [("type", .vStr "state"), ("data", .vNum 0)]))).deliveries := by
  constructor
  · exact c10_laststate_truthiness.1
      [.connect 0 (some "abc") (some "publisher"),
       .event 0 (mkObj [("type", .vStr "state"), ("data", mkObj [("score", .vNum 5)])])]
      "abc" ⟨mkObj [("score", .vNum 5)], 1, 0⟩ (by decide)
  · exact c10_laststate_truthiness.2 (runOps [.connect 0 (some "s") none]) 0
      (mkObj [("type", .vStr "state"), ("data", .vNum 0)]) ⟨0, "s", ""⟩
      ⟨.vNull, 0, 1⟩ 1 (some "s") none (by decide) (by decide) (by decide)
      (by decide) (by decide) (by decide)

/-- The session an operation acts on, if any: the trimmed target of an
accepted handshake, or the room of the live socket an event or
disconnect refers to. -/
def opSession (st : RelayState) : Op → Option String
  | .connect c sO _ =>
    if jsTrim (sO.getD "") = "" then none
    else if liveConn st c then none
    else some (jsTrim (sO.getD ""))
  | .event c _ => (findConn st c).map Conn.sid
  | .disconnect c => (findConn st c).map Conn.sid

/-- Claim C9: cross-session isolation.  In any reachable state, an
operation whose session is not `sid2` leaves the registry entry of
`sid2` (its `lastState` and both counters) unchanged and delivers
nothing to any connection attached to `sid2` — so two connections in
distinct sessions never receive each other's events, under any
interleaving. -/
theorem c9_session_isolation (ops : List Op) (op : Op) (sid2 : String)
    (hne : opSession (runOps ops) op ≠ some sid2) :
    lookupSession (step (runOps ops) op).sessions sid2
        = lookupSession (runOps ops).sessions sid2
  ∧ ∀ k ∈ (runOps ops).conns, k.sid = sid2 →
      deliveredTo (step (runOps ops) op) k.connId
        = deliveredTo (runOps ops) k.connId := by
  cases op with
  | connect c sO rO =>
    by_cases hsid0 : jsTrim (sO.getD "") = ""
    · have h0 : step (runOps ops) (.connect c sO rO) = runOps ops := by
        show connectStep _ c sO rO = _
        rw [connectStep, if_pos hsid0]
      rw [h0]
      exact ⟨rfl, fun k _ _ => rfl⟩
    · by_cases hlive : liveConn (runOps ops) c = true
      · have h0 : step (runOps ops) (.connect c sO rO) = runOps ops := by
          show connectStep _ c sO rO = _
          rw [connectStep, if_neg hsid0]
          simp [hlive]
        rw [h0]
        exact ⟨rfl, fun k _ _ => rfl⟩
      · have hlive' : liveConn (runOps ops) c = false := by simpa using hlive
        have hne2 : jsTrim (sO.getD "") ≠ sid2 := by
          intro hcontra
          apply hne
          rw [opSession, if_neg hsid0, if_neg (by simp [hlive']), hcontra]
        rw [show step (runOps ops) (.connect c sO rO) = connectStep _ c sO rO
            from rfl,
          connectStep_real (runOps ops) c sO rO hsid0 hlive']
        constructor
        · exact lookupSession_setSession_other _ _ _ _ (fun h => hne2 h.symm)
        · intro k hk hks
          have hkc : k.connId ≠ c := (liveConn_false_iff _ c).mp hlive' k hk
          rw [deliveredTo, deliveredTo]
          by_cases htr : truthy (connectUpdate (runOps ops) sO rO).lastState = true
          · simp only [htr, if_true, List.filter_append]
            have : (fun d => d.dest == k.connId)
                (⟨c, .ptp, catchupPayload (connectUpdate (runOps ops) sO rO).lastState⟩
                  : Delivery) = false := by
              simp [Ne.symm hkc]
            simp [this]
          · simp only [Bool.not_eq_true] at htr
            simp [htr]
  | event c pay =>
    cases hf : findConn (runOps ops) c with
    | none =>
      have h0 : step (runOps ops) (.event c pay) = runOps ops := by
        show eventStep _ c pay = _
        rw [eventStep, hf]
      rw [h0]
      exact ⟨rfl, fun k _ _ => rfl⟩
    | some conn =>
      have hconn2 : conn.sid ≠ sid2 := by
        intro hcontra
        exact hne (by simp [opSession, hf, hcontra])
      by_cases hwf : isStructuredObject pay = true
      · rw [show step (runOps ops) (.event c pay) = eventStep _ c pay from rfl,
          eventStep_real (runOps ops) c pay conn hf hwf]
        constructor
        · by_cases hty : getField pay "type" = .vStr "state"
          · simp only [if_pos hty]
            cases hl : lookupSession (runOps ops).sessions conn.sid with
            | none => rfl
            | some s0 =>
              exact lookupSession_setSession_other _ _ _ _ (fun h => hconn2 h.symm)
          · simp only [if_neg hty]
        · intro k hk hks
          rw [deliveredTo, deliveredTo]
          simp only [List.filter_append]
          have hmapnil : List.filter (fun d => d.dest == k.connId)
              (List.map (fun x => (⟨x.connId, .bcast, pay⟩ : Delivery))
                (List.filter (fun x => x.sid == conn.sid) (runOps ops).conns)) = [] := by
            rw [List.filter_eq_nil_iff]
            intro d hd
            rcases List.mem_map.mp hd with ⟨x, hx, hxd⟩
            have hxmem : x ∈ (runOps ops).conns := List.mem_of_mem_filter hx
            have hxsid : x.sid = conn.sid := by
              have := List.of_mem_filter hx
              simpa using this
            intro hdk
            have hxk : x.connId = k.connId := by
              rw [← hxd] at hdk
              simpa using hdk
            have hxeq : x = k :=
              List.inj_on_of_nodup_map (inv_runOps ops).ids_nodup hxmem hk hxk
            rw [hxeq] at hxsid
            exact hconn2 (hxsid.symm.trans hks)
          rw [hmapnil]
          simp
      · have hwf' : isStructuredObject pay = false := by simpa using hwf
        have h0 : step (runOps ops) (.event c pay) = runOps ops := by
          show eventStep _ c pay = _
          rw [eventStep, hf, object_guard, hwf']
          simp
        rw [h0]
        exact ⟨rfl, fun k _ _ => rfl⟩
  | disconnect c =>
    cases hf : findConn (runOps ops) c with
    | none =>
      have h0 : step (runOps ops) (.disconnect c) = runOps ops := by
        show disconnectStep _ c = _
        rw [disconnectStep, hf]
      rw [h0]
      exact ⟨rfl, fun k _ _ => rfl⟩
    | some conn =>
      have hconn2 : conn.sid ≠ sid2 := by
        intro hcontra
        exact hne (by simp [opSession, hf, hcontra])
      rw [show step (runOps ops) (.disconnect c) = disconnectStep (runOps ops) c
          from rfl,
        disconnectStep_real (runOps ops) c conn hf]
      by_cases hz : ((disconnectUpdate (runOps ops) conn).publishers == 0 &&
          (disconnectUpdate (runOps ops) conn).viewers == 0) = true
      · rw [if_pos hz]
        exact ⟨lookupSession_deleteSession_other _ _ _ (fun h => hconn2 h.symm),
          fun k _ _ => rfl⟩
      · rw [if_neg hz]
        exact ⟨lookupSession_setSession_other _ _ _ _ (fun h => hconn2 h.symm),
          fun k _ _ => rfl⟩

/-- Witness for C9: an event in session "a" changes neither session
"b"'s registry entry nor the deliveries of "b"'s member. -/
theorem c9_session_isolation_witness :
    lookupSession (step (runOps [.connect 0 (some "a") (some "publisher"),
        .connect 1 (some "b") none])
        (.event 0 (mkObj [("type", .vStr "emoji")]))).sessions "b"
      = lookupSession (runOps [.connect 0 (some "a") (some "publisher"),
        .connect 1 (some "b") none]).sessions "b"
  ∧ deliveredTo (step (runOps [.connect 0 (some "a") (some "publisher"),
        .connect 1 (some "b") none])
        (.event 0 (mkObj [("type", .vStr "emoji")]))) 1
      = deliveredTo (runOps [.connect 0 (some "a") (some "publisher"),
        .connect 1 (some "b") none]) 1 := by
  have h := c9_session_isolation
    [.connect 0 (some "a") (some "publisher"), .connect 1 (some "b") none]
    (.event 0 (mkObj [("type", .vStr "emoji")])) "b" (by decide)
  exact ⟨h.1, h.2 ⟨1, "b", ""⟩ (by decide) (by decide)⟩

/-- Whether an operation is a well-formed "state" event sent by a live
connection of session `sid` in state `st`. -/
def stateEventFor (sid : String) (st : RelayState) : Op → Prop
  | .event c pay => (∃ conn, findConn st c = some conn ∧ conn.sid = sid)
      ∧ isStructuredObject pay = true ∧ getField pay "type" = .vStr "state"
  | _ => False

/-- Whether an operation evicts session `sid` from the registry. -/
def evictsSession (sid : String) (st : RelayState) (op : Op) : Prop :=
  sessionExists st sid = true ∧ sessionExists (step st op) sid = false

theorem disconnectUpdate_lastState (st : RelayState) (conn : Conn) :
    (disconnectUpdate st conn).lastState
      = ((lookupSession st.sessions conn.sid).getD freshSession).lastState := by
  rw [disconnectUpdate]
  by_cases hr : conn.role = "publisher" <;> simp [hr]

theorem lastState_preserved (st : RelayState) (op : Op) (sid : String) (v : Value)
    (hl : lastStateOf st sid = some v)
    (h1 : ¬ stateEventFor sid st op) (h2 : ¬ evictsSession sid st op) :
    lastStateOf (step st op) sid = some v := by
  obtain ⟨s, hls, hlv⟩ : ∃ s, lookupSession st.sessions sid = some s
      ∧ s.lastState = v := by
    rw [lastStateOf] at hl
    cases hlk : lookupSession st.sessions sid with
    | none => rw [hlk] at hl; cases hl
    | some s =>
      rw [hlk] at hl
      exact ⟨s, rfl, by simpa using hl⟩
  cases op with
  | connect c sO rO =>
    by_cases hsid0 : jsTrim (sO.getD "") = ""
    · show lastStateOf (connectStep st c sO rO) sid = some v
      rw [connectStep, if_pos hsid0, lastStateOf, hls, Option.map_some', hlv]
    · by_cases hlive : liveConn st c = true
      · show lastStateOf (connectStep st c sO rO) sid = some v
        rw [connectStep, if_neg hsid0]
        simp only [hlive, if_true]
        rw [lastStateOf, hls, Option.map_some', hlv]
      · show lastStateOf (connectStep st c sO rO) sid = some v
        rw [connectStep_real st c sO rO hsid0 (by simpa using hlive)]
        by_cases hq : jsTrim (sO.getD "") = sid
        · rw [lastStateOf]
          show (lookupSession (setSession st.sessions (jsTrim (sO.getD ""))
            (connectUpdate st sO rO)) sid).map Session.lastState = some v
          rw [hq, lookupSession_setSession_self, Option.map_some',
            connectUpdate_lastState]
          rw [hq, hls, Option.getD_some, hlv]
        · rw [lastStateOf]
          show (lookupSession (setSession st.sessions (jsTrim (sO.getD ""))
            (connectUpdate st sO rO)) sid).map Session.lastState = some v
          rw [lookupSession_setSession_other _ _ _ _ (fun h => hq h.symm), hls,
            Option.map_some', hlv]
  | event c pay =>
    cases hf : findConn st c with
    | none =>
      show lastStateOf (eventStep st c pay) sid = some v
      rw [eventStep, hf, lastStateOf, hls, Option.map_some', hlv]
    | some conn =>
      by_cases hwf : isStructuredObject pay = true
      · show lastStateOf (eventStep st c pay) sid = some v
        rw [eventStep_real st c pay conn hf hwf]
        by_cases hty : getField pay "type" = .vStr "state"
        · have hcs : conn.sid ≠ sid := by
            intro hcontra
            exact h1 ⟨⟨conn, hf, hcontra⟩, hwf, hty⟩
          rw [lastStateOf]
          simp only [if_pos hty]
          cases hlk : lookupSession st.sessions conn.sid with
          | none => rw [hls, Option.map_some', hlv]
          | some s1 =>
            show (lookupSession (setSession st.sessions conn.sid _) sid).map
              Session.lastState = some v
            rw [lookupSession_setSession_other _ _ _ _ (fun h => hcs h.symm),
              hls, Option.map_some', hlv]
        · rw [lastStateOf]
          simp only [if_neg hty]
          rw [hls, Option.map_some', hlv]
      · have hwf' : isStructuredObject pay = false := by simpa using hwf
        show lastStateOf (eventStep st c pay) sid = some v
        rw [eventStep, hf, object_guard, hwf']
        simp only [Bool.false_eq_true, if_false]
        rw [lastStateOf, hls, Option.map_some', hlv]
  | disconnect c =>
    cases hf : findConn st c with
    | none =>
      show lastStateOf (disconnectStep st c) sid = some v
      rw [disconnectStep, hf, lastStateOf, hls, Option.map_some', hlv]
    | some conn =>
      show lastStateOf (disconnectStep st c) sid = some v
      rw [disconnectStep_real st c conn hf]
      by_cases hz : ((disconnectUpdate st conn).publishers == 0 &&
          (disconnectUpdate st conn).viewers == 0) = true
      · rw [if_pos hz]
        by_cases hq : conn.sid = sid
        · exfalso
          apply h2
          constructor
          · rw [sessionExists, hls]
            rfl
          · have : step st (.disconnect c) = disconnectStep st c := rfl
            rw [this, disconnectStep_real st c conn hf, if_pos hz, sessionExists]
            show (lookupSession (deleteSession st.sessions conn.sid) sid).isSome
              = false
            rw [hq, lookupSession_deleteSession_self]
            rfl
        · rw [lastStateOf]
          show (lookupSession (deleteSession st.sessions conn.sid) sid).map
            Session.lastState = some v
          rw [lookupSession_deleteSession_other _ _ _ (fun h => hq h.symm), hls,
            Option.map_some', hlv]
      · rw [if_neg hz]
        by_cases hq : conn.sid = sid
        · rw [lastStateOf]
          show (lookupSession (setSession st.sessions conn.sid
            (disconnectUpdate st conn)) sid).map Session.lastState = some v
          rw [hq, lookupSession_setSession_self, Option.map_some',
            disconnectUpdate_lastState, hq, hls, Option.getD_some, hlv]
        · rw [lastStateOf]
          show (lookupSession (setSession st.sessions conn.sid
            (disconnectUpdate st conn)) sid).map Session.lastState = some v
          rw [lookupSession_setSession_other _ _ _ _ (fun h => hq h.symm), hls,
            Option.map_some', hlv]

theorem lastState_preserved_run (st : RelayState) (mid : List Op) (sid : String)
    (v : Value) (hl : lastStateOf st sid = some v)
    (hmid : ∀ pre op post, mid = pre ++ op :: post →
      ¬ stateEventFor sid (runFrom st pre) op
      ∧ ¬ evictsSession sid (runFrom st pre) op) :
    lastStateOf (runFrom st mid) sid = some v := by
  induction mid generalizing st with
  | nil => exact hl
  | cons op rest ih =>
    have h0 := hmid [] op rest rfl
    have hstep := lastState_preserved st op sid v hl h0.1 h0.2
    refine ih (step st op) hstep ?_
    intro pre op2 post hdecomp
    exact hmid (op :: pre) op2 post (by rw [hdecomp]; rfl)

/-- The concrete round-trip payload `{type: "state", data: {score: 5}}`. -/
def scoreFivePayload : Value :=
  mkObj [("type", .vStr "state"), ("data", mkObj [("score", .vNum 5)])]

/-- Claim C2: round-trip of cached state.  In any reachable state, after
a live connection of a session sends the well-formed event
`{type: "state", data: {score: 5}}`, then as long as no further "state"
event for that session and no eviction of it occurs, every fresh
connection that subsequently joins that session receives exactly
`{type: "state", data: {score: 5}}` as its catch-up delivery. -/
theorem c2_state_roundtrip (ops : List Op) (a : Nat) (conn : Conn)
    (hf : findConn (runOps ops) a = some conn)
    (mid : List Op)
    (hmid : ∀ pre op post, mid = pre ++ op :: post →
      ¬ stateEventFor conn.sid
          (runFrom (step (runOps ops) (.event a scoreFivePayload)) pre) op
      ∧ ¬ evictsSession conn.sid
          (runFrom (step (runOps ops) (.event a scoreFivePayload)) pre) op)
    (c2 : Nat) (sO rO : Option String)
    (hsO : jsTrim (sO.getD "") = conn.sid)
    (hlive2 : liveConn
      (runFrom (step (runOps ops) (.event a scoreFivePayload)) mid) c2 = false)
    (hfresh2 : deliveredTo
      (runFrom (step (runOps ops) (.event a scoreFivePayload)) mid) c2 = []) :
    deliveredTo (step (runFrom (step (runOps ops) (.event a scoreFivePayload)) mid)
        (.connect c2 sO rO)) c2
      = [⟨c2, .ptp, scoreFivePayload⟩] := by
  obtain ⟨hmem, hcid⟩ := findConn_mem _ a conn hf
  have hex := (inv_runOps ops).conn_session conn hmem
  rw [sessionExists, Option.isSome_iff_exists] at hex
  obtain ⟨s0, hl0⟩ := hex
  have hsidne : conn.sid ≠ "" := (inv_runOps ops).conn_sid conn hmem
  have hwfpay : isStructuredObject scoreFivePayload = true := rfl
  have htypay : getField scoreFivePayload "type" = Value.vStr "state" := rfl
  have hdatapay : orNull (getField scoreFivePayload "data")
      = mkObj [("score", .vNum 5)] := rfl
  have hl1 : lastStateOf (step (runOps ops) (.event a scoreFivePayload)) conn.sid
      = some (mkObj [("score", .vNum 5)]) := by
    show lastStateOf (eventStep (runOps ops) a scoreFivePayload) conn.sid = _
    rw [eventStep_real _ a scoreFivePayload conn hf hwfpay]
    rw [lastStateOf]
    simp only [if_pos htypay, hl0]
    rw [lookupSession_setSession_self, Option.map_some', hdatapay]
  have hl2 := lastState_preserved_run
    (step (runOps ops) (.event a scoreFivePayload)) mid conn.sid
    (mkObj [("score", .vNum 5)]) hl1 hmid
  obtain ⟨s2, hls2, hlv2⟩ : ∃ s2,
      lookupSession (runFrom (step (runOps ops) (.event a scoreFivePayload))
        mid).sessions conn.sid = some s2
      ∧ s2.lastState = mkObj [("score", .vNum 5)] := by
    rw [lastStateOf] at hl2
    cases hlk : lookupSession (runFrom (step (runOps ops)
        (.event a scoreFivePayload)) mid).sessions conn.sid with
    | none => rw [hlk] at hl2; cases hl2
    | some s2 =>
      rw [hlk] at hl2
      exact ⟨s2, rfl, by simpa using hl2⟩
  have hsid0 : jsTrim (sO.getD "") ≠ "" := by
    rw [hsO]
    exact hsidne
  rw [show step (runFrom (step (runOps ops) (.event a scoreFivePayload)) mid)
        (.connect c2 sO rO)
      = connectStep (runFrom (step (runOps ops) (.event a scoreFivePayload)) mid)
        c2 sO rO from rfl,
    connectStep_real _ c2 sO rO hsid0 hlive2]
  have hcu : (connectUpdate (runFrom (step (runOps ops)
      (.event a scoreFivePayload)) mid) sO rO).lastState
      = mkObj [("score", .vNum 5)] := by
    rw [connectUpdate_lastState, hsO, hls2, Option.getD_some, hlv2]
  rw [deliveredTo]
  simp only [hcu]
  rw [if_pos (show truthy (mkObj [("score", .vNum 5)]) = true from rfl)]
  rw [List.filter_append]
  rw [deliveredTo] at hfresh2
  rw [hfresh2]
  simp [catchupPayload, scoreFivePayload]

/-- Witness for C2: publisher sends the state event, an unrelated viewer
joins and leaves in between, then a fresh viewer joins and receives the
cached payload. -/
theorem c2_state_roundtrip_witness :
    deliveredTo (step (runFrom (step
        (runOps [.connect 0 (some "abc") (some "publisher")])
        (.event 0 scoreFivePayload))
        [.connect 1 (some "abc") none, .disconnect 1])
        (.connect 2 (some "abc") none)) 2
      = [⟨2, .ptp, scoreFivePayload⟩] := by
  refine c2_state_roundtrip [.connect 0 (some "abc") (some "publisher")] 0
    ⟨0, "abc", "publisher"⟩ (by decide) [.connect 1 (some "abc") none, .disconnect 1]
    ?_ 2 (some "abc") none (by decide) (by decide) (by decide)
  intro pre op post hdecomp
  have hcases : (pre = [] ∧ op = Op.connect 1 (some "abc") none
        ∧ post = [Op.disconnect 1])
      ∨ (pre = [Op.connect 1 (some "abc") none] ∧ op = Op.disconnect 1
        ∧ post = []) := by
    cases pre with
    | nil =>
      simp only [List.nil_append] at hdecomp
      injection hdecomp with h1 h2
      exact Or.inl ⟨rfl, h1.symm, h2.symm⟩
    | cons p1 prest =>
      cases prest with
      | nil =>
        simp only [List.cons_append, List.nil_append] at hdecomp
        injection hdecomp with h1 h2
        injection h2 with h3 h4
        exact Or.inr ⟨by rw [h1], h3.symm, h4.symm⟩
      | cons p2 prest2 =>
        exfalso
        simp only [List.cons_append] at hdecomp
        injection hdecomp with h1 h2
        injection h2 with h3 h4
        exact absurd h4.symm (by simp)
  rcases hcases with ⟨hp, ho, _⟩ | ⟨hp, ho, _⟩ <;> subst hp <;> subst ho <;>
    constructor
  · exact fun hcontra => hcontra
  · intro hcontra
    exact absurd hcontra.2 (by decide)
  · exact fun hcontra => hcontra
  · intro hcontra
    exact absurd hcontra.2 (by decide)

end HollowBridge
